import Mathlib

/-
Verification of the package-staging and overlay-layering core
(craft_parts/packages/deb.py and the overlay manager).

Pure functions of the source are embedded directly; stateful code is
embedded as functions that also return the list of external effects
(commands run, directories created, mount calls issued) so that claims
about host mutation can be stated as properties of the effect trace.
External collaborators (the apt package database, the filesystem) are
explicit parameters.
-/

namespace CraftParts

/-! ## Python string helpers -/

/-- Helper for `py_words`: accumulates the current word (reversed) while
scanning the character list, splitting on runs of whitespace. -/
def py_words_aux : List Char → List Char → List (List Char)
  | [], acc => if acc.isEmpty then [] else [acc.reverse]
  | c :: cs, acc =>
    if c.isWhitespace then
      if acc.isEmpty then py_words_aux cs []
      else acc.reverse :: py_words_aux cs []
    else py_words_aux cs (c :: acc)

/-- Python `str.split()` with no arguments: split on runs of whitespace,
dropping empty pieces. -/
def py_words (s : String) : List String :=
  (py_words_aux s.data []).map fun w => String.mk w

/-- The second whitespace-separated field of a line, `line.split()[1]` in the
source.  The Python expression raises IndexError when no second field exists;
the model returns the empty string there, and theorems that depend on this
spot restrict to inputs with a second field. -/
def second_field (s : String) : String :=
  (py_words s).getD 1 ""

/-- Python `s.split(sep, maxsplit=1)` on a character list: the part before the
first separator, and optionally the rest. -/
def split_once (sep : Char) : List Char → List Char × Option (List Char)
  | [] => ([], none)
  | c :: cs =>
    if c = sep then ([], some cs)
    else
      let r := split_once sep cs
      (c :: r.1, r.2)

/-- Modelled from the spec: the shared helper get_pkg_name_parts
(craft_parts/packages/base.py, not under src/) splits a PackageSpec of the
form name or name=version into the package name and the optional pinned
version. -/
def get_pkg_name_parts (pkg : String) : String × Option String :=
  let r := split_once '=' pkg.data
  (String.mk r.1, r.2.map fun v => String.mk v)

/-! ## Sorting (Python sorted on strings and on pairs) -/

/-- Insert a string into a list, keeping an already le-sorted list sorted. -/
def insert_le (x : String) : List String → List String
  | [] => [x]
  | y :: ys => if x ≤ y then x :: y :: ys else y :: insert_le x ys

/-- Python `sorted` on a list of strings (insertion sort; the order is the
lexicographic order on strings). -/
def sortStrings : List String → List String
  | [] => []
  | x :: xs => insert_le x (sortStrings xs)

/-- Lexicographic comparison of (name, version) pairs, the order Python
`sorted` uses on 2-tuples of strings. -/
def pair_le (a b : String × String) : Bool :=
  decide (a.1 < b.1) || (decide (a.1 = b.1) && decide (a.2 ≤ b.2))

/-- Insert a pair into a pair-le-sorted list. -/
def insert_pair (x : String × String) :
    List (String × String) → List (String × String)
  | [] => [x]
  | y :: ys => if pair_le x y then x :: y :: ys else y :: insert_pair x ys

/-- Python `sorted` on a list of (name, version) pairs. -/
def sort_pairs : List (String × String) → List (String × String)
  | [] => []
  | x :: xs => insert_pair x (sort_pairs xs)

/-! ## Data model -/

/-- Modelled from the spec: DebPackage (craft_parts/packages/deb_package.py,
not under src/).  A PackageSpec is a package name plus an optional pinned
version, so from_unparsed keeps the name part of a name or name=version
string. -/
structure DebPackage where
  name : String
  deriving DecidableEq, Repr

/-- Modelled from the spec: DebPackage.from_unparsed parses an unparsed
PackageSpec string (name or name=version) into a package record. -/
def DebPackage.from_unparsed (s : String) : DebPackage :=
  ⟨(get_pkg_name_parts s).1⟩

/-! ## deb.py constants -/

/-- The frozen historical package-name list returned for the legacy bases
(deb.py, _DEFAULT_FILTERED_STAGE_PACKAGES). -/
def _DEFAULT_FILTERED_STAGE_PACKAGES : List String := [
  "adduser", "apt", "apt-utils", "base-files", "base-passwd", "bash",
  "bsdutils", "coreutils", "dash", "debconf", "debconf-i18n", "debianutils",
  "diffutils", "dmsetup", "dpkg", "e2fslibs", "e2fsprogs", "file",
  "findutils", "gcc-4.9-base", "gcc-5-base", "gnupg", "gpgv", "grep",
  "gzip", "hostname", "init", "initscripts", "insserv", "libacl1",
  "libapparmor1", "libapt", "libapt-inst1.5", "libapt-pkg4.12", "libattr1",
  "libaudit-common", "libaudit1", "libblkid1", "libbz2-1.0", "libc-bin",
  "libc6", "libcap2", "libcap2-bin", "libcomerr2", "libcryptsetup4",
  "libdb5.3", "libdebconfclient0", "libdevmapper1.02.1", "libgcc1",
  "libgcrypt20", "libgpg-error0", "libgpm2", "libkmod2",
  "liblocale-gettext-perl", "liblzma5", "libmagic1", "libmount1",
  "libncurses5", "libncursesw5", "libpam-modules", "libpam-modules-bin",
  "libpam-runtime", "libpam0g", "libpcre3", "libprocps3", "libreadline6",
  "libselinux1", "libsemanage-common", "libsemanage1", "libsepol1",
  "libslang2", "libsmartcols1", "libss2", "libstdc++6", "libsystemd0",
  "libtext-charwidth-perl", "libtext-iconv-perl", "libtext-wrapi18n-perl",
  "libtinfo5", "libudev1", "libusb-0.1-4", "libustr-1.0-1", "libuuid1",
  "locales", "login", "lsb-base", "makedev", "manpages", "manpages-dev",
  "mawk", "mount", "multiarch-support", "ncurses-base", "ncurses-bin",
  "passwd", "perl-base", "procps", "readline-common", "sed",
  "sensible-utils", "systemd", "systemd-sysv", "sysv-rc", "sysvinit-utils",
  "tar", "tzdata", "ubuntu-keyring", "udev", "util-linux", "zlib1g"]

/-- The per-base ignore-exemption sets (deb.py, IGNORE_FILTERS); the Python
dict has a single key core20 and lookups use `.get(base, set())`. -/
def IGNORE_FILTERS (base : String) : Finset String :=
  if base = "core20" then
    {"python3-attr", "python3-blinker", "python3-certifi",
     "python3-cffi-backend", "python3-chardet", "python3-configobj",
     "python3-cryptography", "python3-idna", "python3-importlib-metadata",
     "python3-jinja2", "python3-json-pointer", "python3-jsonpatch",
     "python3-jsonschema", "python3-jwt", "python3-lib2to3",
     "python3-markupsafe", "python3-more-itertools", "python3-netifaces",
     "python3-oauthlib", "python3-pyrsistent", "python3-pyudev",
     "python3-requests", "python3-requests-unixsocket", "python3-serial",
     "python3-six", "python3-urllib3", "python3-urwid", "python3-yaml",
     "python3-zipp"}
  else ∅

/-! ## Base manifest (get_packages_in_base) -/

/-- A read-only view of the filesystem: a path maps to the lines of the file
at that path, or none when the file does not exist. -/
def FileSystem := String → Option (List String)

/-- The dpkg listing path keyed by the base name (deb.py,
_get_dpkg_list_path). -/
def dpkg_list_path (base : String) : String :=
  "/snap/" ++ base ++ "/current/usr/share/snappy/dpkg.list"

/-- Python `s.startswith(pre)`: prefix test on the character lists (the
core String.startsWith is equivalent but blocks kernel evaluation). -/
def py_startswith (s pre : String) : Bool :=
  pre.data.isPrefixOf s.data

/-- The loop body of get_packages_in_base: keep lines starting with the
installed-status marker and parse the second whitespace-separated field. -/
def parse_dpkg_lines : List String → List DebPackage
  | [] => []
  | line :: rest =>
    if py_startswith line "ii " then
      DebPackage.from_unparsed (second_field line) :: parse_dpkg_lines rest
    else
      parse_dpkg_lines rest

/-- Embedding of get_packages_in_base (deb.py): the frozen historical list
for the legacy bases, otherwise the parsed on-disk listing at the path keyed
by the base name, the empty list when the file is missing. -/
def get_packages_in_base (fs : FileSystem) (base : String) : List DebPackage :=
  if base = "core" ∨ base = "core16" ∨ base = "core18" then
    _DEFAULT_FILTERED_STAGE_PACKAGES.map DebPackage.from_unparsed
  else
    match fs (dpkg_list_path base) with
    | none => []
    | some lines => parse_dpkg_lines lines

/-- Embedding of _get_filtered_stage_package_names (deb.py):
manifest names minus requested names minus the ignore-exemption set. -/
def _get_filtered_stage_package_names (fs : FileSystem) (base : String)
    (package_list : List DebPackage) : Finset String :=
  let manifest_packages := (get_packages_in_base fs base).map DebPackage.name
  let stage_packages := package_list.map DebPackage.name
  manifest_packages.toFinset \ stage_packages.toFinset \ IGNORE_FILTERS base

/-! ## Source types (get_packages_for_source_type) -/

/-- Python equality between a str and a list of str: values of different
types, always False.  The source compares `source_type == ["svn",
"subversion"]` where source_type is a string. -/
def py_str_eq_str_list (_source_type : String) (_lst : List String) : Bool :=
  false

/-- Embedding of Ubuntu.get_packages_for_source_type (deb.py).  The svn
branch keeps the source comparison of a string against a two-element list,
which is always false in Python. -/
def get_packages_for_source_type (source_type : String) : Finset String :=
  if source_type = "bzr" then {"bzr"}
  else if source_type = "git" then {"git"}
  else if source_type = "tar" then {"tar"}
  else if source_type = "hg" ∨ source_type = "mercurial" then {"mercurial"}
  else if py_str_eq_str_list source_type ["svn", "subversion"] then
    {"subversion"}
  else if source_type = "rpm2cpio" then {"rpm2cpio"}
  else if source_type = "7zip" then {"p7zip-full"}
  else ∅

/-! ## Build-package installation (install_build_packages) -/

/-- The external apt collaborator and the outcomes of the external commands
that install_build_packages may run.  installed gives the installed version
of a package name (with virtual-package resolution); mark_result gives the
resolved set the database marks for installation for a requested name list,
or the name that is absent from the index; install_ok and mark_auto_ok are
the exit outcomes of the apt-get install and apt-mark auto commands. -/
structure AptEnv where
  installed : String → Option String
  mark_result : List String → Except String (List (String × String))
  install_ok : Bool
  mark_auto_ok : Bool

/-- External commands run on the host by the build-package flow. -/
inductive Cmd where
  | refresh_index
  | apt_install (packages : List String)
  | apt_mark_auto (names : List String)
  deriving DecidableEq, Repr

/-- Typed errors of the package repository (packages/errors.py). -/
inductive PkgError where
  | BuildPackageNotFound (name : String)
  | PackageListRefreshError
  | BuildPackagesNotInstalled (packages : List String)
  deriving DecidableEq, Repr

/-- Embedding of Ubuntu._check_if_all_packages_installed (deb.py): true when
every requested package, honoring an optional pinned name=version, is
installed at the exact required version. -/
def _check_if_all_packages_installed (env : AptEnv)
    (package_names : List String) : Bool :=
  package_names.all fun package =>
    let parts := get_pkg_name_parts package
    match env.installed parts.1 with
    | none => false
    | some installed_version =>
      match parts.2 with
      | none => true
      | some pkg_version => installed_version = pkg_version

/-- Embedding of Ubuntu._install_packages (deb.py): run apt-get install (a
failure raises BuildPackagesNotInstalled), then apt-mark auto on the
versionless names (a failure is only logged as a warning).  Returns the
commands run and, on success, whether the warning was emitted. -/
def _install_packages (env : AptEnv) (package_names : List String) :
    List Cmd × Except PkgError Bool :=
  if env.install_ok then
    let versionless_names := package_names.map fun p => (get_pkg_name_parts p).1
    ([Cmd.apt_install package_names, Cmd.apt_mark_auto versionless_names],
      Except.ok (!env.mark_auto_ok))
  else
    ([Cmd.apt_install package_names],
      Except.error (PkgError.BuildPackagesNotInstalled package_names))

/-- Embedding of Ubuntu.install_build_packages (deb.py).  The empty request
returns at once; otherwise the names are sorted, the already-installed check
decides install_required (the index-refresh call in the source is commented
out, so no refresh command is ever issued), the database resolves the marked
set, and unless list_only the resolved name=version strings are installed. -/
def install_build_packages (env : AptEnv) (package_names : List String)
    (list_only : Bool) : List Cmd × Except PkgError (List String) :=
  if package_names.isEmpty then ([], Except.ok [])
  else
    let sorted_names := sortStrings package_names
    let install_required := ! _check_if_all_packages_installed env sorted_names
    match env.mark_result sorted_names with
    | Except.error name =>
      ([], Except.error (PkgError.BuildPackageNotFound name))
    | Except.ok marked_packages =>
      let packages :=
        (sort_pairs marked_packages).map fun nv => nv.1 ++ "=" ++ nv.2
      if list_only then ([], Except.ok packages)
      else if install_required then
        let r := _install_packages env packages
        (r.1, r.2.map fun _ => packages)
      else ([], Except.ok packages)

/-! ## Stage-package fetch (fetch_stage_packages) -/

/-- The apt collaborator of the stage-package flow: given the requested set
and the unmarked (filtered-out) set, resolve_marked lists the packages
marked for installation and fetched_archives lists the (name, version)
pairs of the archives fetch_archives downloads. -/
structure FetchEnv where
  resolve_marked : Finset String → Finset String → List (String × String)
  fetched_archives : Finset String → Finset String → List (String × String)

/-- External effects of fetch_stage_packages: directory creation, the apt
session, marking and unmarking, and linking each downloaded archive into the
stage directory. -/
inductive FetchEffect where
  | mkdir_stage_dir
  | mkdir_cache_dir
  | apt_session
  | mark_pkgs (pkgs : Finset String)
  | unmark_pkgs (pkgs : Finset String)
  | link_archive (name : String) (version : String)
  deriving DecidableEq

/-- Embedding of Ubuntu.fetch_stage_packages (deb.py): an empty request
returns at once with no effect; otherwise the filtered-out names are
computed, the stage directory is created unless list_only, the download
cache directory is created, the requested set is marked and the filtered
set unmarked inside an apt session, and the resolved (list_only) or fetched
name=version strings are returned sorted. -/
def fetch_stage_packages (env : FetchEnv) (fs : FileSystem)
    (package_names : List String) (base : String) (list_only : Bool) :
    List FetchEffect × List String :=
  if package_names.isEmpty then ([], [])
  else
    let filtered_names := _get_filtered_stage_package_names fs base
      (package_names.map DebPackage.from_unparsed)
    let dir_effects :=
      (if list_only then [] else [FetchEffect.mkdir_stage_dir]) ++
        [FetchEffect.mkdir_cache_dir]
    let requested := package_names.toFinset
    let session_effects :=
      [FetchEffect.apt_session, FetchEffect.mark_pkgs requested,
        FetchEffect.unmark_pkgs filtered_names]
    if list_only then
      let marked := env.resolve_marked requested filtered_names
      let installed :=
        ((sort_pairs marked).map fun nv => nv.1 ++ "=" ++ nv.2).dedup
      (dir_effects ++ session_effects, sortStrings installed)
    else
      let archives := env.fetched_archives requested filtered_names
      let link_effects :=
        archives.map fun nv => FetchEffect.link_archive nv.1 nv.2
      let installed := (archives.map fun nv => nv.1 ++ "=" ++ nv.2).dedup
      (dir_effects ++ session_effects ++ link_effects, sortStrings installed)

/-! ## Stage-package unpack (unpack_stage_packages) -/

/-- Events of the unpack flow, in order of occurrence: extraction of one
archive, tagging of all files extracted from it with its name=version
provenance record, merging of its files into the shared install tree, and
the final cross-package normalization pass. -/
inductive UnpackEvent where
  | extract (archive : String)
  | tag (archive : String) (record : String)
  | merge (archive : String)
  | normalize_pass
  deriving DecidableEq, Repr

/-- The loop of unpack_stage_packages, threading the pkg_path variable: it
is set to each archive in turn, so after the loop it holds the last archive
processed, or its initial value when no archive was seen. -/
def unpack_loop (records : String → String) :
    List String → Option String → List UnpackEvent × Option String
  | [], pkg_path => ([], pkg_path)
  | a :: rest, _ =>
    let r := unpack_loop records rest (some a)
    ([UnpackEvent.extract a, UnpackEvent.tag a (records a),
      UnpackEvent.merge a] ++ r.1, r.2)

/-- Embedding of Ubuntu.unpack_stage_packages (deb.py): for each archive,
extract it, tag the extracted files with the archive provenance record
(dpkg-deb name=version output, given by records), merge into the install
tree; then run normalize once if pkg_path was set by the loop. -/
def unpack_stage_packages (records : String → String)
    (archives : List String) : List UnpackEvent :=
  let r := unpack_loop records archives none
  r.1 ++ (if r.2.isSome then [UnpackEvent.normalize_pass] else [])

/-! ## Overlay manager (modelled from the spec) -/

/-- Modelled from the spec: the OverlayManager state
(craft_parts/overlays/overlay_manager.py, not under src/).  It owns the
global part build order, an optional base read-only layer directory, the
per-part layer directory mapping, and the shared package-cache layer
directory. -/
structure OverlayManagerM where
  part_list : List String
  base_layer_dir : Option String
  layer_dir : String → String
  pkg_cache_dir : String

/-- One union-mount invocation: the ordered lower directories (first has
highest precedence) and the upper directory. -/
structure MountCall where
  lower_dirs : List String
  upper_dir : String
  deriving DecidableEq, Repr

/-- Modelled from the spec: OverlayManager.mount_layer.  Rejected with the
state error before any mount call when no base layer is configured;
otherwise the lower chain is the optional package-cache layer, then the
layers of the parts built before the given part most-recently-built first,
then the base layer, and the upper dir is the part layer. -/
def mount_layer (om : OverlayManagerM) (part : String) (pkg_cache : Bool) :
    List MountCall × Except String Unit :=
  match om.base_layer_dir with
  | none => ([], Except.error "request to mount overlay without a base layer")
  | some base_dir =>
    let before := om.part_list.takeWhile fun q => q ≠ part
    let lowers :=
      (if pkg_cache then [om.pkg_cache_dir] else []) ++
        before.reverse.map om.layer_dir ++ [base_dir]
    ([⟨lowers, om.layer_dir part⟩], Except.ok ())

/-- Modelled from the spec: OverlayManager.mount_pkg_cache.  Rejected with
the state error before any mount call when no base layer is configured;
otherwise mounts with the base layer as the only lower dir and the shared
package-cache layer as the upper dir. -/
def mount_pkg_cache (om : OverlayManagerM) :
    List MountCall × Except String Unit :=
  match om.base_layer_dir with
  | none =>
    ([], Except.error
      "request to mount the overlay package cache without a base layer")
  | some base_dir =>
    ([⟨[base_dir], om.pkg_cache_dir⟩], Except.ok ())

/-! ## Helper lemmas -/

theorem parse_dpkg_lines_eq (lines : List String) :
    parse_dpkg_lines lines =
      (lines.filter fun l => py_startswith l "ii ").map
        fun l => DebPackage.from_unparsed (second_field l) := by
  induction lines with
  | nil => rfl
  | cons l rest ih =>
    by_cases h : py_startswith l "ii " = true
    · simp [parse_dpkg_lines, h, List.filter_cons, ih]
    · simp [parse_dpkg_lines, h, List.filter_cons, ih]

theorem mem_insert_le {x y : String} {l : List String} :
    y ∈ insert_le x l ↔ y = x ∨ y ∈ l := by
  induction l with
  | nil => simp [insert_le]
  | cons z zs ih =>
    by_cases h : x ≤ z
    · simp [insert_le, h]
    · simp [insert_le, h, ih]
      tauto

theorem length_insert_le (x : String) (l : List String) :
    (insert_le x l).length = l.length + 1 := by
  induction l with
  | nil => rfl
  | cons z zs ih =>
    by_cases h : x ≤ z
    · simp [insert_le, h]
    · simp [insert_le, h, ih]

theorem sortStrings_isEmpty (l : List String) :
    (sortStrings l).isEmpty = l.isEmpty := by
  cases l with
  | nil => rfl
  | cons x xs =>
    have h : (sortStrings (x :: xs)).length = xs.length + 1 := by
      simp [sortStrings, length_insert_le]
      induction xs with
      | nil => rfl
      | cons y ys ih => simp [sortStrings, length_insert_le, ih]
    cases he : sortStrings (x :: xs) with
    | nil => rw [he] at h; simp at h
    | cons a as => simp

theorem all_insert_le (p : String → Bool) (x : String) (l : List String) :
    (insert_le x l).all p = (p x && l.all p) := by
  induction l with
  | nil => simp [insert_le]
  | cons z zs ih =>
    by_cases h : x ≤ z
    · simp [insert_le, h]
    · simp [insert_le, h, ih]
      cases p x <;> cases p z <;> simp

theorem all_sortStrings (p : String → Bool) (l : List String) :
    (sortStrings l).all p = l.all p := by
  induction l with
  | nil => rfl
  | cons x xs ih => simp [sortStrings, all_insert_le, ih]

theorem pairwise_insert_le (x : String) {l : List String}
    (h : l.Pairwise (· ≤ ·)) : (insert_le x l).Pairwise (· ≤ ·) := by
  induction l with
  | nil => simp [insert_le]
  | cons y ys ih =>
    rcases List.pairwise_cons.mp h with ⟨hy, hys⟩
    by_cases hxy : x ≤ y
    · rw [insert_le, if_pos hxy]
      refine List.pairwise_cons.mpr ⟨?_, h⟩
      intro z hz
      rcases List.mem_cons.mp hz with hz | hz
      · exact hz ▸ hxy
      · exact le_trans hxy (hy z hz)
    · rw [insert_le, if_neg hxy]
      refine List.pairwise_cons.mpr ⟨?_, ih hys⟩
      intro z hz
      rcases mem_insert_le.mp hz with hz | hz
      · exact hz ▸ le_of_not_le hxy
      · exact hy z hz

theorem sortStrings_pairwise (l : List String) :
    (sortStrings l).Pairwise (· ≤ ·) := by
  induction l with
  | nil => simp [sortStrings]
  | cons x xs ih => exact pairwise_insert_le x ih

theorem sortStrings_of_pairwise {l : List String}
    (h : l.Pairwise (· ≤ ·)) : sortStrings l = l := by
  induction l with
  | nil => rfl
  | cons x xs ih =>
    rcases List.pairwise_cons.mp h with ⟨hx, hxs⟩
    rw [sortStrings, ih hxs]
    cases xs with
    | nil => rfl
    | cons y ys =>
      rw [insert_le, if_pos (hx y (List.mem_cons_self y ys))]

theorem sortStrings_idem (l : List String) :
    sortStrings (sortStrings l) = sortStrings l :=
  sortStrings_of_pairwise (sortStrings_pairwise l)

theorem mem_insert_pair {x y : String × String} {l : List (String × String)} :
    y ∈ insert_pair x l ↔ y = x ∨ y ∈ l := by
  induction l with
  | nil => simp [insert_pair]
  | cons z zs ih =>
    by_cases h : pair_le x z = true
    · simp [insert_pair, h]
    · simp [insert_pair, h, ih]
      tauto

theorem mem_sort_pairs {x : String × String} {l : List (String × String)} :
    x ∈ sort_pairs l ↔ x ∈ l := by
  induction l with
  | nil => simp [sort_pairs]
  | cons y ys ih => simp [sort_pairs, mem_insert_pair, ih]

theorem split_once_append (sep : Char) (v : List Char) {n : List Char}
    (h : sep ∉ n) : split_once sep (n ++ sep :: v) = (n, some v) := by
  induction n with
  | nil => simp [split_once]
  | cons c cs ih =>
    have hc : ¬ c = sep := fun he => h (he ▸ List.mem_cons_self c cs)
    have hcs : sep ∉ cs := fun hm => h (List.mem_cons_of_mem c hm)
    simp [split_once, hc, ih hcs]

theorem get_pkg_name_parts_format (n v : String) (h : '=' ∉ n.data) :
    get_pkg_name_parts (n ++ "=" ++ v) = (n, some v) := by
  have hd : (n ++ "=" ++ v).data = n.data ++ '=' :: v.data := by
    simp [String.data_append]
  rw [get_pkg_name_parts, hd, split_once_append '=' v.data h]
  rfl

theorem unpack_loop_events (records : String → String)
    (archives : List String) :
    ∀ pkg_path, (unpack_loop records archives pkg_path).1 =
      (archives.map fun a =>
        [UnpackEvent.extract a, UnpackEvent.tag a (records a),
          UnpackEvent.merge a]).flatten := by
  induction archives with
  | nil => intro pkg_path; rfl
  | cons a rest ih =>
    intro pkg_path
    simp [unpack_loop, ih (some a)]

theorem unpack_loop_state (records : String → String)
    (archives : List String) :
    ∀ pkg_path, (unpack_loop records archives pkg_path).2.isSome =
      (pkg_path.isSome || !archives.isEmpty) := by
  induction archives with
  | nil => intro pkg_path; simp [unpack_loop]
  | cons a rest ih =>
    intro pkg_path
    simp [unpack_loop, ih (some a)]

theorem takeWhile_ne_get {α : Type} [DecidableEq α] :
    ∀ (l : List α) (k : Nat) (hk : k < l.length), l.Nodup →
      l.takeWhile (fun q => q ≠ l.get ⟨k, hk⟩) = l.take k := by
  intro l
  induction l with
  | nil => intro k hk _; simp at hk
  | cons p rest ih =>
    intro k hk hnd
    rcases List.nodup_cons.mp hnd with ⟨hp, hrest⟩
    cases k with
    | zero => simp [List.takeWhile]
    | succ j =>
      have hj : j < rest.length := Nat.lt_of_succ_lt_succ hk
      have hx : rest.get ⟨j, hj⟩ ∈ rest := List.get_mem rest j hj
      have hne : p ≠ rest.get ⟨j, hj⟩ := fun he => hp (he ▸ hx)
      simp only [List.take, List.get]
      rw [List.takeWhile_cons]
      simp only [hne, decide_True, decide_False, ne_eq]
      rw [if_pos (by simp [hne]), ih j hj hrest]

/-! ## Claim theorems -/

/-- C1: for every base name and every requested package list, the
filtered-out stage package set computed by fetch_stage_packages through
_get_filtered_stage_package_names has exactly the members of manifest(base)
that are neither requested names nor in the ignore-exemption set of the
base; in particular a requested package name is never filtered out, even
when it is present in the base manifest. -/
theorem filtered_stage_packages_spec (fs : FileSystem) (base : String)
    (package_list : List DebPackage) :
    (∀ x, x ∈ _get_filtered_stage_package_names fs base package_list ↔
      (x ∈ (get_packages_in_base fs base).map DebPackage.name ∧
        x ∉ package_list.map DebPackage.name ∧ x ∉ IGNORE_FILTERS base)) ∧
    ∀ p ∈ package_list,
      p.name ∉ _get_filtered_stage_package_names fs base package_list := by
  have hmem : ∀ x, x ∈ _get_filtered_stage_package_names fs base package_list ↔
      (x ∈ (get_packages_in_base fs base).map DebPackage.name ∧
        x ∉ package_list.map DebPackage.name ∧ x ∉ IGNORE_FILTERS base) := by
    intro x
    simp only [_get_filtered_stage_package_names, Finset.mem_sdiff,
      List.mem_toFinset]
    tauto
  refine ⟨hmem, ?_⟩
  intro p hp hin
  exact ((hmem p.name).mp hin).2.1 (List.mem_map_of_mem DebPackage.name hp)

/-- Filesystem for the C1 witness, realizing the spec example: the core20
manifest holds python3-yaml and libbar, python3-yaml is in the core20
ignore-exemption set. -/
def fsC1 : FileSystem := fun p =>
  if p = dpkg_list_path "core20" then
    some ["ii python3-yaml 5.3.1 all yaml", "ii libbar 1.0 all bar"]
  else none

/-- Requested package list of the C1 witness. -/
def pkgsC1 : List DebPackage := [DebPackage.from_unparsed "libfoo"]

/-- Witness for C1 at the spec example: requested libfoo on base core20 with
manifest python3-yaml and libbar gives the filtered-out set with libbar
alone, and the requested name is not filtered out. -/
theorem filtered_stage_packages_spec_witness :
    DebPackage.from_unparsed "libfoo" ∈ pkgsC1 ∧
    "libfoo" ∉ _get_filtered_stage_package_names fsC1 "core20" pkgsC1 ∧
    _get_filtered_stage_package_names fsC1 "core20" pkgsC1 = {"libbar"} := by
  refine ⟨by decide, ?_, by decide⟩
  exact (filtered_stage_packages_spec fsC1 "core20" pkgsC1).2
    (DebPackage.from_unparsed "libfoo") (by decide)

/-- The fixed legacy base identities of get_packages_in_base. -/
def legacy_bases : List String := ["core", "core16", "core18"]

/-- C2: for every base in the fixed legacy set, get_packages_in_base returns
the frozen historical package list regardless of filesystem state; for every
other base a missing listing file yields the empty manifest, and a present
listing contributes exactly the second whitespace-separated field of each
line starting with the installed-status marker. -/
theorem get_packages_in_base_spec :
    (∀ fs base, base ∈ legacy_bases →
      get_packages_in_base fs base =
        _DEFAULT_FILTERED_STAGE_PACKAGES.map DebPackage.from_unparsed) ∧
    (∀ fs base, base ∉ legacy_bases →
      fs (dpkg_list_path base) = none → get_packages_in_base fs base = []) ∧
    (∀ fs base lines, base ∉ legacy_bases →
      fs (dpkg_list_path base) = some lines →
      get_packages_in_base fs base =
        (lines.filter fun l => py_startswith l "ii ").map
          fun l => DebPackage.from_unparsed (second_field l)) := by
  refine ⟨?_, ?_, ?_⟩
  · intro fs base hb
    have hcond : base = "core" ∨ base = "core16" ∨ base = "core18" := by
      simpa [legacy_bases] using hb
    rw [get_packages_in_base, if_pos hcond]
  · intro fs base hb hf
    have hcond : ¬ (base = "core" ∨ base = "core16" ∨ base = "core18") := by
      simpa [legacy_bases] using hb
    rw [get_packages_in_base, if_neg hcond, hf]
  · intro fs base lines hb hf
    have hcond : ¬ (base = "core" ∨ base = "core16" ∨ base = "core18") := by
      simpa [legacy_bases] using hb
    rw [get_packages_in_base, if_neg hcond, hf]
    exact parse_dpkg_lines_eq lines

/-- Listing lines for the C2 witness: two installed lines and one removed
line. -/
def linesC2 : List String :=
  ["ii adduser 3.118ubuntu1 all desc", "rc removed 1.0 all gone",
    "ii libbar 1.0 all lib"]

/-- Filesystem for the C2 witness: a dpkg listing for base core22. -/
def fsC2 : FileSystem := fun p =>
  if p = dpkg_list_path "core22" then some linesC2 else none

/-- Witness for C2: core22 is not legacy, its listing is present, and the
parsed manifest keeps exactly the names of the two installed lines. -/
theorem get_packages_in_base_spec_witness :
    "core22" ∉ legacy_bases ∧
    fsC2 (dpkg_list_path "core22") = some linesC2 ∧
    get_packages_in_base fsC2 "core22" =
      [DebPackage.from_unparsed "adduser", DebPackage.from_unparsed "libbar"] := by
  refine ⟨by decide, by decide, ?_⟩
  have h := get_packages_in_base_spec.2.2 fsC2 "core22" linesC2
    (by decide) (by decide)
  rw [h]
  decide

/-- C6: for every execution of unpack_stage_packages, the event trace is, in
order, extraction, provenance tagging and merging for each archive of the
stage directory, with the tagging of each archive preceding the merge of its
files; the cross-package normalization pass is appended at the end and runs
exactly once if and only if at least one archive was processed. -/
theorem unpack_stage_packages_spec (records : String → String)
    (archives : List String) :
    unpack_stage_packages records archives =
      (archives.map fun a =>
        [UnpackEvent.extract a, UnpackEvent.tag a (records a),
          UnpackEvent.merge a]).flatten ++
        (if archives.isEmpty then [] else [UnpackEvent.normalize_pass]) ∧
    (unpack_stage_packages records archives).count UnpackEvent.normalize_pass =
      (if archives.isEmpty then 0 else 1) := by
  have he := unpack_loop_events records archives none
  have hs := unpack_loop_state records archives none
  have h1 : unpack_stage_packages records archives =
      (archives.map fun a =>
        [UnpackEvent.extract a, UnpackEvent.tag a (records a),
          UnpackEvent.merge a]).flatten ++
        (if archives.isEmpty then [] else [UnpackEvent.normalize_pass]) := by
    cases harch : archives.isEmpty <;>
      simp [unpack_stage_packages, he, hs, harch]
  refine ⟨h1, ?_⟩
  rw [h1, List.count_append]
  have hflat : ((archives.map fun a =>
      [UnpackEvent.extract a, UnpackEvent.tag a (records a),
        UnpackEvent.merge a]).flatten).count UnpackEvent.normalize_pass = 0 := by
    refine List.count_eq_zero.mpr ?_
    simp [List.mem_flatten]
  rw [hflat]
  cases archives.isEmpty <;> simp

/-- C9: evaluation of get_packages_for_source_type at the source types of
the claim.  The bzr, git, tar, mercurial, rpm2cpio and 7zip mappings hold,
but svn and subversion produce the empty set: the source compares the
source-type string for equality with the list of the two names instead of
testing membership, and that comparison is always false in Python. -/
theorem get_packages_for_source_type_eval :
    get_packages_for_source_type "bzr" = {"bzr"} ∧
    get_packages_for_source_type "git" = {"git"} ∧
    get_packages_for_source_type "tar" = {"tar"} ∧
    get_packages_for_source_type "hg" = {"mercurial"} ∧
    get_packages_for_source_type "mercurial" = {"mercurial"} ∧
    get_packages_for_source_type "svn" = ∅ ∧
    get_packages_for_source_type "subversion" = ∅ ∧
    get_packages_for_source_type "rpm2cpio" = {"rpm2cpio"} ∧
    get_packages_for_source_type "7zip" = {"p7zip-full"} ∧
    get_packages_for_source_type "zip" = ∅ := by
  decide

/-- C10: for an empty requested package list, install_build_packages and
fetch_stage_packages each return the empty result at once, with no command
run, no apt session, no marking, and no directory created. -/
theorem empty_request_no_effects (env : AptEnv) (fenv : FetchEnv)
    (fs : FileSystem) (base : String) (lo lo2 : Bool) :
    install_build_packages env [] lo = ([], Except.ok []) ∧
    fetch_stage_packages fenv fs [] base lo2 = ([], []) :=
  ⟨rfl, rfl⟩

/-- C3 (amended): install_build_packages sorts the requested names first
(the result is invariant under pre-sorting the request), never runs the
package-index refresh (the refresh call is disabled in the source), and
runs the install command exactly when the call is not list-only, the
request is nonempty and resolvable, and not every requested package is
already installed at the exact required version. -/
theorem install_build_packages_refresh_install :
    (∀ (env : AptEnv) (names : List String) (lo : Bool),
      Cmd.refresh_index ∉ (install_build_packages env names lo).1) ∧
    (∀ (env : AptEnv) (names : List String) (lo : Bool),
      install_build_packages env (sortStrings names) lo =
        install_build_packages env names lo) ∧
    (∀ (env : AptEnv) (names : List String),
      (∃ ps, Cmd.apt_install ps ∈ (install_build_packages env names false).1) ↔
        (names ≠ [] ∧
          (∃ m, env.mark_result (sortStrings names) = Except.ok m) ∧
          _check_if_all_packages_installed env (sortStrings names) = false)) := by
  refine ⟨?_, ?_, ?_⟩
  · intro env names lo
    cases hne : names.isEmpty
    · cases hm : env.mark_result (sortStrings names) with
      | error n => simp [install_build_packages, hne, hm]
      | ok m =>
        cases lo
        · cases hchk : _check_if_all_packages_installed env (sortStrings names)
          · cases hio : env.install_ok <;>
              simp [install_build_packages, hne, hm, hchk, _install_packages,
                hio]
          · simp [install_build_packages, hne, hm, hchk]
        · simp [install_build_packages, hne, hm]
    · simp [install_build_packages, hne]
  · intro env names lo
    simp only [install_build_packages, sortStrings_isEmpty, sortStrings_idem]
  · intro env names
    cases names with
    | nil => simp [install_build_packages]
    | cons a as =>
      cases hm : env.mark_result (sortStrings (a :: as)) with
      | error n => simp [install_build_packages, hm]
      | ok m =>
        cases hchk :
            _check_if_all_packages_installed env (sortStrings (a :: as))
        · cases hio : env.install_ok <;>
            simp [install_build_packages, hm, hchk, _install_packages, hio]
        · simp [install_build_packages, hm, hchk]

/-- Apt environment for the C3 counterexample: nothing is installed, the
request resolves to foo at version 1.0, and both external commands
succeed. -/
def envC3 : AptEnv :=
  ⟨fun _ => none, fun _ => Except.ok [("foo", "1.0")], true, true⟩

/-- Witness for the amended C3 at a concrete input: no refresh command is in
the trace of a nonempty, resolvable, not-yet-installed request. -/
theorem install_build_packages_refresh_install_witness :
    Cmd.refresh_index ∉ (install_build_packages envC3 ["foo"] false).1 :=
  install_build_packages_refresh_install.1 envC3 ["foo"] false

/-- C3 counterexample: the requested package foo is not installed at the
required version, yet install_build_packages issues no index-refresh
command, so skipping the refresh is not equivalent to all requested
packages being installed. -/
theorem install_build_packages_refresh_cex :
    ¬ ((Cmd.refresh_index ∉ (install_build_packages envC3 ["foo"] false).1) ↔
      _check_if_all_packages_installed envC3 (sortStrings ["foo"]) = true) := by
  decide

/-- C4: install_build_packages in list-only mode runs no command at all (no
host mutation), and whenever the non-list-only call succeeds, the list-only
call returns exactly the same resolved name=version list. -/
theorem install_build_packages_list_only (env : AptEnv)
    (names : List String) :
    (install_build_packages env names true).1 = [] ∧
    ∀ r, (install_build_packages env names false).2 = Except.ok r →
      (install_build_packages env names true).2 = Except.ok r := by
  constructor
  · cases hne : names.isEmpty
    · cases hm : env.mark_result (sortStrings names) <;>
        simp [install_build_packages, hne, hm]
    · simp [install_build_packages, hne]
  · intro r hr
    cases hne : names.isEmpty
    · cases hm : env.mark_result (sortStrings names) with
      | error n => simp [install_build_packages, hne, hm] at hr
      | ok m =>
        cases hchk : _check_if_all_packages_installed env (sortStrings names)
        · cases hio : env.install_ok
          · simp [install_build_packages, hne, hm, hchk, _install_packages,
              hio, Except.map] at hr
          · simp [install_build_packages, hne, hm, hchk, _install_packages,
              hio, Except.map] at hr
            simp [install_build_packages, hne, hm, hr]
        · simp [install_build_packages, hne, hm, hchk] at hr
          simp [install_build_packages, hne, hm, hr]
    · simp [install_build_packages, hne] at hr
      simp [install_build_packages, hne, hr]

/-- Apt environment for the C4 witness: everything is installed at version
1.0 and the request resolves to bar at version 2.0. -/
def envC4 : AptEnv :=
  ⟨fun _ => some "1.0", fun _ => Except.ok [("bar", "2.0")], true, true⟩

/-- Witness for C4: the non-list-only call succeeds with bar=2.0 and the
list-only call returns the same list with an empty command trace. -/
theorem install_build_packages_list_only_witness :
    (install_build_packages envC4 ["bar"] false).2 = Except.ok ["bar=2.0"] ∧
    (install_build_packages envC4 ["bar"] true).1 = [] ∧
    (install_build_packages envC4 ["bar"] true).2 = Except.ok ["bar=2.0"] :=
  ⟨rfl, (install_build_packages_list_only envC4 ["bar"]).1,
    (install_build_packages_list_only envC4 ["bar"]).2 ["bar=2.0"] rfl⟩

/-- C5: after a successful non-list-only install, the auto-mark command is
run on the versionless resolved names, which include every originally
requested name; the call succeeds for either outcome of the auto-mark
command, so its failure is only a warning; and the other external failures
propagate as typed errors: a failing install raises
BuildPackagesNotInstalled and an unresolvable name raises
BuildPackageNotFound. -/
theorem install_auto_mark_spec :
    (∀ (env : AptEnv) (names : List String)
      (marked : List (String × String)),
      env.mark_result (sortStrings names) = Except.ok marked →
      (∀ n ∈ names, ∃ v, (n, v) ∈ marked) →
      (∀ nv ∈ marked, '=' ∉ nv.1.data) →
      names ≠ [] →
      _check_if_all_packages_installed env (sortStrings names) = false →
      env.install_ok = true →
      ∃ autoNames,
        Cmd.apt_mark_auto autoNames ∈
          (install_build_packages env names false).1 ∧
        (∀ n ∈ names, n ∈ autoNames) ∧
        (install_build_packages env names false).2 =
          Except.ok ((sort_pairs marked).map fun nv => nv.1 ++ "=" ++ nv.2)) ∧
    (∀ (env : AptEnv) (packages : List String), env.install_ok = false →
      _install_packages env packages =
        ([Cmd.apt_install packages],
          Except.error (PkgError.BuildPackagesNotInstalled packages))) ∧
    (∀ (env : AptEnv) (names : List String) (name : String), names ≠ [] →
      env.mark_result (sortStrings names) = Except.error name →
      install_build_packages env names false =
        ([], Except.error (PkgError.BuildPackageNotFound name))) := by
  refine ⟨?_, ?_, ?_⟩
  · intro env names marked hm hreq hname hne hchk hio
    have hemp : names.isEmpty = false := by
      cases names with
      | nil => exact absurd rfl hne
      | cons a as => rfl
    refine ⟨((sort_pairs marked).map fun nv => nv.1 ++ "=" ++ nv.2).map
      (fun p => (get_pkg_name_parts p).1), ?_, ?_, ?_⟩
    · simp [install_build_packages, hemp, hm, hchk, _install_packages, hio]
    · intro n hn
      rcases hreq n hn with ⟨v, hv⟩
      have hv2 : (n, v) ∈ sort_pairs marked := mem_sort_pairs.mpr hv
      have h3 := List.mem_map_of_mem (fun p => (get_pkg_name_parts p).1)
        (List.mem_map_of_mem (fun nv => nv.1 ++ "=" ++ nv.2) hv2)
      have h4 : (get_pkg_name_parts (n ++ "=" ++ v)).1 = n := by
        rw [get_pkg_name_parts_format n v (hname (n, v) hv)]
      exact h4 ▸ h3
    · simp [install_build_packages, hemp, hm, hchk, _install_packages, hio,
        Except.map]
  · intro env packages h
    simp [_install_packages, h]
  · intro env names name hne hm
    have hemp : names.isEmpty = false := by
      cases names with
      | nil => exact absurd rfl hne
      | cons a as => rfl
    simp [install_build_packages, hemp, hm]

/-- Apt environment for the C5 witness: nothing is installed, the request
resolves to foo at version 1.0, the install command succeeds and the
auto-mark command fails. -/
def envC5 : AptEnv :=
  ⟨fun _ => none, fun _ => Except.ok [("foo", "1.0")], true, false⟩

/-- Witness for C5: with the auto-mark command failing, the flow still
succeeds and the trace holds an auto-mark command covering the requested
name foo. -/
theorem install_auto_mark_spec_witness :
    envC5.mark_auto_ok = false ∧
    ∃ autoNames,
      Cmd.apt_mark_auto autoNames ∈
        (install_build_packages envC5 ["foo"] false).1 ∧
      "foo" ∈ autoNames ∧
      (install_build_packages envC5 ["foo"] false).2 =
        Except.ok ["foo=1.0"] := by
  obtain ⟨autoNames, h1, h2, h3⟩ := install_auto_mark_spec.1 envC5 ["foo"]
    [("foo", "1.0")] rfl
    (by
      intro n hn
      simp only [List.mem_singleton] at hn
      exact ⟨"1.0", by simp [hn]⟩)
    (by decide) (by decide) (by decide) rfl
  exact ⟨rfl, autoNames, h1, h2 "foo" (by decide), h3.trans rfl⟩

/-- C7: for a part at position k of the build order, mount_layer with
pkg_cache false issues one mount whose lower-dir chain is the layers of the
parts built before it, most-recently-built first, followed by the base
layer, and whose upper dir is the layer of the part itself. -/
theorem mount_layer_chain (parts : List String) (base_dir : String)
    (ld : String → String) (pc : String) (k : Nat) (hk : k < parts.length)
    (hnd : parts.Nodup) :
    mount_layer ⟨parts, some base_dir, ld, pc⟩ (parts.get ⟨k, hk⟩) false =
      ([⟨(parts.take k).reverse.map ld ++ [base_dir],
        ld (parts.get ⟨k, hk⟩)⟩], Except.ok ()) := by
  have hdef : mount_layer ⟨parts, some base_dir, ld, pc⟩
      (parts.get ⟨k, hk⟩) false =
      ([⟨(parts.takeWhile fun q => q ≠ parts.get ⟨k, hk⟩).reverse.map ld ++
        [base_dir], ld (parts.get ⟨k, hk⟩)⟩], Except.ok ()) := rfl
  rw [hdef, takeWhile_ne_get parts k hk hnd]

/-- Per-part layer directory of the witness managers, following the layout
of the unit tests. -/
def ldC7 : String → String := fun name => "parts/" ++ name ++ "/layer"

/-- Overlay manager of the C7 witness: build order p1 p2 with a base
layer. -/
def omC7 : OverlayManagerM :=
  ⟨["p1", "p2"], some "base_dir", ldC7, "overlay/packages"⟩

/-- Witness for C7, reproducing the mount_layer unit test: mounting the
layer of p2 with build order p1 p2 mounts with lower chain p1 layer then
base and upper dir p2 layer. -/
theorem mount_layer_chain_witness :
    (1 < (["p1", "p2"] : List String).length ∧
      (["p1", "p2"] : List String).Nodup) ∧
    mount_layer omC7 "p2" false =
      ([⟨["parts/p1/layer", "base_dir"], "parts/p2/layer"⟩],
        Except.ok ()) := by
  refine ⟨⟨by decide, by decide⟩, ?_⟩
  exact mount_layer_chain ["p1", "p2"] "base_dir" ldC7 "overlay/packages"
    1 (by decide) (by decide)

/-- C8: with no configured base layer, every mount_layer and mount_pkg_cache
call fails with the state error and issues zero mount calls, for every part
and either pkg_cache flag. -/
theorem mount_no_base (om : OverlayManagerM) (part : String) (pc : Bool)
    (h : om.base_layer_dir = none) :
    mount_layer om part pc =
      ([], Except.error "request to mount overlay without a base layer") ∧
    mount_pkg_cache om =
      ([], Except.error
        "request to mount the overlay package cache without a base layer") := by
  rw [mount_layer, mount_pkg_cache, h]
  exact ⟨rfl, rfl⟩

/-- Overlay manager of the C8 witness: same build order, no base layer. -/
def omC8 : OverlayManagerM := ⟨["p1", "p2"], none, ldC7, "overlay/packages"⟩

/-- Witness for C8: the manager without a base layer rejects both mount
operations with the state errors and zero mount calls. -/
theorem mount_no_base_witness :
    omC8.base_layer_dir = none ∧
    mount_layer omC8 "p1" false =
      ([], Except.error "request to mount overlay without a base layer") ∧
    mount_pkg_cache omC8 =
      ([], Except.error
        "request to mount the overlay package cache without a base layer") := by
  have h := mount_no_base omC8 "p1" false rfl
  exact ⟨rfl, h.1, h.2⟩

end CraftParts
